import Mathlib

/-!
Verification of the Hakushicyatto chat backend.

The definitions below are a shallow embedding of the repository's code:
the room message store (`Chat.saveMessage`, `Chat.onStart`,
`Chat.onMessage`, `Chat.onConnect` in `src/server/index.ts`), the client
reconciler (the `usePartySocket` `onMessage` handler in the client file),
the geometry normalizer (`normalizeSvg`), the ink-encoding geometry
(`generateSvgBlob`), and the upload boundary (`handleSvgUpload`).
-/

/-- Author role of a chat message (the string enum in `shared.ts`:
either user or assistant). -/
inductive Role where
  | user
  | assistant
  deriving DecidableEq, Repr

/-- Attachment descriptor from `shared.ts`: id, url, filename. -/
structure SvgAttachment where
  id : String
  url : String
  filename : String
  deriving DecidableEq, Repr

/-- Chat message record from `shared.ts`. -/
structure ChatMessage where
  id : String
  content : String
  user : String
  role : Role
  timestamp : Option Int := none
  svgs : Option (List SvgAttachment) := none
  deriving DecidableEq, Repr

namespace Chat

/-- In-memory half of `Chat.saveMessage` (server lines 59-73): if a
message with the same id exists, map-replace every such entry by the new
message; otherwise push at the end. -/
def saveMessageMem (msgs : List ChatMessage) (m : ChatMessage) : List ChatMessage :=
  match msgs.find? (fun x => x.id == m.id) with
  | some _ => msgs.map (fun x => if x.id == m.id then m else x)
  | none => msgs ++ [m]

/-- Row of the sqlite `messages` table created in `Chat.onStart`:
id TEXT PRIMARY KEY, user, role, content, timestamp, svgs. -/
structure Row where
  id : String
  user : String
  role : Role
  content : String
  timestamp : Option Int
  svgs : Option (List SvgAttachment)
  deriving DecidableEq, Repr

/-- Models the JS expression `message.timestamp || null`: an absent or
falsy (zero) timestamp is stored as NULL. -/
def tsOrNull : Option Int → Option Int
  | some t => if t = 0 then none else some t
  | none => none

/-- Row inserted by the parameterized INSERT for a fresh id
(server line 77, VALUES list). -/
def toRow (m : ChatMessage) : Row :=
  { id := m.id, user := m.user, role := m.role, content := m.content,
    timestamp := tsOrNull m.timestamp, svgs := m.svgs }

/-- Effect of `ON CONFLICT (id) DO UPDATE SET content = ?, timestamp = ?,
svgs = ?` on the conflicting row: user and role are not in the SET list
and keep their stored values. -/
def updateRow (r : Row) (m : ChatMessage) : Row :=
  { r with content := m.content, timestamp := tsOrNull m.timestamp, svgs := m.svgs }

/-- Durable-storage half of `Chat.saveMessage` (server lines 76-87):
upsert keyed by message id. -/
def dbUpsert (rows : List Row) (m : ChatMessage) : List Row :=
  match rows.find? (fun r => r.id == m.id) with
  | some _ => rows.map (fun r => if r.id == m.id then updateRow r m else r)
  | none => rows ++ [toRow m]

/-- Row-to-message mapping performed by `Chat.onStart` when loading the
table (server lines 40-47). -/
def rowToMsg (r : Row) : ChatMessage :=
  { id := r.id, content := r.content, user := r.user, role := r.role,
    timestamp := r.timestamp, svgs := r.svgs }

/-- State reconstruction performed by `Chat.onStart` (server lines 29-47). -/
def load (rows : List Row) : List ChatMessage := rows.map rowToMsg

/-- Combined room state: the in-memory `this.messages` list and the
persisted `messages` table. -/
structure StoreState where
  messages : List ChatMessage
  db : List Row
  deriving DecidableEq, Repr

/-- Full `Chat.saveMessage` (server lines 59-88): in-memory update plus
durable upsert. -/
def saveMessage (st : StoreState) (m : ChatMessage) : StoreState :=
  { messages := saveMessageMem st.messages m, db := dbUpsert st.db m }

/-- Payload of `Chat.onConnect` (server lines 50-57): the full in-memory
message list, sent as a type-all snapshot. -/
def snapshot (st : StoreState) : List ChatMessage := st.messages

/-- A freshly created room before any message arrives. -/
def emptyRoom : StoreState := ⟨[], []⟩

/-- Wire protocol messages from `shared.ts`. -/
inductive WireMsg where
  | add (id content user : String) (role : Role)
      (timestamp : Option Int) (svgs : Option (List SvgAttachment))
  | update (id content user : String) (role : Role)
      (timestamp : Option Int) (svgs : Option (List SvgAttachment))
  | all (messages : List ChatMessage)
  deriving DecidableEq, Repr

/-- The chat message extracted from an add or update wire message by
`Chat.onMessage` (server lines 96-104); none for the all shape. -/
def WireMsg.toChat? : WireMsg → Option ChatMessage
  | .add i c u r t s => some ⟨i, c, u, r, t, s⟩
  | .update i c u r t s => some ⟨i, c, u, r, t, s⟩
  | .all _ => none

/-- Observable actions a room performs while handling one incoming
message, in execution order. -/
inductive ServerEvent where
  | broadcastEv (msg : WireMsg)
  | appendEv (m : ChatMessage)
  deriving DecidableEq, Repr

/-- `Chat.onMessage` (server lines 90-106). The event list records the
temporal order of the two effects: the raw message is broadcast first
(line 92), and only afterwards is the store updated via `saveMessage`
(lines 95-105). -/
def onMessage (st : StoreState) (msg : WireMsg) : StoreState × List ServerEvent :=
  match msg.toChat? with
  | some m => (saveMessage st m, [.broadcastEv msg, .appendEv m])
  | none => (st, [.broadcastEv msg])

/-- Replaying a whole sequence of appends against an initially empty
in-memory store. -/
def applyAll (ops : List ChatMessage) : List ChatMessage :=
  ops.foldl saveMessageMem []

/-- Replaying a whole sequence of `saveMessage` calls against a fresh
room. -/
def applyAllStore (ops : List ChatMessage) : StoreState :=
  ops.foldl saveMessage emptyRoom

/-- One step of first-introduction-order bookkeeping: record an id the
first time it is seen. -/
def introStep (l : List String) (i : String) : List String :=
  if i ∈ l then l else l ++ [i]

/-- The order in which ids were first introduced by a sequence of
appends. -/
def dedupFirst (ids : List String) : List String :=
  ids.foldl introStep []

/-- The latest append carrying a given id in a sequence of appends. -/
def lastWrite (ops : List ChatMessage) (i : String) : Option ChatMessage :=
  ops.foldl (fun w m => if m.id == i then some m else w) none

/-- The map-replace performed on an existing id never changes the list of
ids: a matching entry is replaced by a message with that same id. -/
lemma ids_map_replace (msgs : List ChatMessage) (m : ChatMessage) :
    (msgs.map (fun x => if x.id == m.id then m else x)).map (·.id) = msgs.map (·.id) := by
  induction msgs with
  | nil => rfl
  | cons a t ih =>
    simp only [List.map_cons, ih, List.cons.injEq, and_true]
    by_cases h : a.id = m.id
    · simp [h]
    · simp [h]

lemma fun_replace_id (m x : ChatMessage) :
    (if x.id == m.id then m else x).id = x.id := by
  by_cases h : x.id = m.id
  · simp [h]
  · simp [h]

lemma ids_save (msgs : List ChatMessage) (m : ChatMessage) :
    (saveMessageMem msgs m).map (·.id) = introStep (msgs.map (·.id)) m.id := by
  unfold saveMessageMem introStep
  cases hf : msgs.find? (fun x => x.id == m.id) with
  | some x =>
    have hx : x.id = m.id := by simpa using List.find?_some hf
    have hmem : m.id ∈ msgs.map (·.id) :=
      hx ▸ List.mem_map_of_mem _ (List.mem_of_find?_eq_some hf)
    rw [ids_map_replace]
    simp [hmem]
  | none =>
    have hmem : m.id ∉ msgs.map (·.id) := by
      intro hc
      rcases List.mem_map.mp hc with ⟨x, hxmem, hxid⟩
      have hne := List.find?_eq_none.mp hf x hxmem
      simp only [beq_iff_eq] at hne
      exact hne (by simpa using hxid)
    simp [hmem]

/-- Lookup by id after one save: the saved id maps to the new message,
every other id is untouched. -/
lemma find?_save (msgs : List ChatMessage) (m : ChatMessage) (i : String) :
    (saveMessageMem msgs m).find? (fun x => x.id == i) =
      if m.id = i then some m else msgs.find? (fun x => x.id == i) := by
  unfold saveMessageMem
  cases hf : msgs.find? (fun x => x.id == m.id) with
  | some x =>
    have hpred : (fun y : ChatMessage => y.id == i) ∘
        (fun y : ChatMessage => if y.id == m.id then m else y) =
        fun y : ChatMessage => y.id == i := by
      funext y
      simp only [Function.comp_apply, fun_replace_id]
    rw [List.find?_map, hpred]
    by_cases h : m.id = i
    · subst h
      rw [hf]
      have hx : x.id = m.id := by simpa using List.find?_some hf
      simp [hx]
    · cases hg : msgs.find? (fun x => x.id == i) with
      | some y =>
        have hy : y.id = i := by simpa using List.find?_some hg
        have hym : ¬ (y.id = m.id) := by
          rw [hy]
          exact fun hh => h hh.symm
        simp [h, hym]
      | none => simp [h]
  | none =>
    rw [List.find?_append]
    by_cases h : m.id = i
    · subst h
      have hnone : msgs.find? (fun x => x.id == m.id) = none := hf
      have hm : [m].find? (fun x => x.id == m.id) = some m :=
        List.find?_cons_of_pos _ (by simp)
      rw [hnone, hm]
      simp
    · have hm : [m].find? (fun x => x.id == i) = none := by
        rw [List.find?_cons_of_neg _ (by simp [h])]
        rfl
      rw [hm]
      cases hg : msgs.find? (fun x => x.id == i) with
      | some y => simp [h]
      | none => simp [h]

lemma foldl_ids (ops : List ChatMessage) (acc : List ChatMessage) :
    (ops.foldl saveMessageMem acc).map (·.id) =
      (ops.map (·.id)).foldl introStep (acc.map (·.id)) := by
  induction ops generalizing acc with
  | nil => rfl
  | cons m t ih =>
    simp only [List.foldl_cons, List.map_cons]
    rw [ih, ids_save]

lemma foldl_lookup (ops : List ChatMessage) (acc : List ChatMessage) (i : String) :
    (ops.foldl saveMessageMem acc).find? (fun x => x.id == i) =
      ops.foldl (fun w m => if m.id == i then some m else w)
        (acc.find? (fun x => x.id == i)) := by
  induction ops generalizing acc with
  | nil => rfl
  | cons m t ih =>
    simp only [List.foldl_cons]
    rw [ih, find?_save]
    by_cases h : m.id = i
    · simp [h]
    · simp [h]

lemma lookup_applyAll (ops : List ChatMessage) (i : String) :
    (applyAll ops).find? (fun x => x.id == i) = lastWrite ops i := by
  unfold applyAll lastWrite
  rw [foldl_lookup]
  rfl

lemma mem_foldl_introStep (l : List String) (acc : List String) (i : String) :
    i ∈ l.foldl introStep acc ↔ i ∈ acc ∨ i ∈ l := by
  induction l generalizing acc with
  | nil => simp
  | cons a t ih =>
    simp only [List.foldl_cons]
    rw [ih]
    unfold introStep
    by_cases h : a ∈ acc
    · simp only [if_pos h, List.mem_cons]
      constructor
      · rintro (h1 | h1)
        · exact Or.inl h1
        · exact Or.inr (Or.inr h1)
      · rintro (h1 | h1 | h1)
        · exact Or.inl h1
        · exact Or.inl (h1 ▸ h)
        · exact Or.inr h1
    · simp only [if_neg h, List.mem_append, List.mem_singleton, List.mem_cons]
      tauto

lemma nodup_foldl_introStep (l : List String) (acc : List String)
    (h : acc.Nodup) : (l.foldl introStep acc).Nodup := by
  induction l generalizing acc with
  | nil => exact h
  | cons a t ih =>
    simp only [List.foldl_cons]
    apply ih
    unfold introStep
    by_cases ha : a ∈ acc
    · simpa [ha] using h
    · simp [ha, List.nodup_append, h]

lemma dedupFirst_nodup (l : List String) : (dedupFirst l).Nodup :=
  nodup_foldl_introStep l [] (by simp)

lemma mem_dedupFirst (l : List String) (i : String) : i ∈ dedupFirst l ↔ i ∈ l := by
  simpa using mem_foldl_introStep l [] i

lemma countP_id_eq_count (msgs : List ChatMessage) (i : String) :
    msgs.countP (fun x => x.id == i) = (msgs.map (·.id)).count i := by
  rw [List.count_eq_countP, List.countP_map]
  rfl

lemma messages_foldl_save (ops : List ChatMessage) (st : StoreState) :
    (ops.foldl saveMessage st).messages = ops.foldl saveMessageMem st.messages := by
  induction ops generalizing st with
  | nil => rfl
  | cons m t ih => simpa [List.foldl_cons] using ih (saveMessage st m)

lemma snapshot_applyAllStore (ops : List ChatMessage) :
    snapshot (applyAllStore ops) = applyAll ops := by
  unfold snapshot applyAllStore applyAll emptyRoom
  exact messages_foldl_save ops _

/-- The conflict-branch update of the durable table never changes row
ids: only content, timestamp and svgs are in the SET list. -/
lemma ids_row_update (rows : List Row) (m : ChatMessage) :
    (rows.map (fun r => if r.id == m.id then updateRow r m else r)).map (·.id) =
      rows.map (·.id) := by
  induction rows with
  | nil => rfl
  | cons a t ih =>
    simp only [List.map_cons, ih, List.cons.injEq, and_true]
    by_cases h : a.id = m.id
    · simp [h, updateRow]
    · simp [h]

lemma ids_dbUpsert (rows : List Row) (m : ChatMessage) :
    (dbUpsert rows m).map (·.id) = introStep (rows.map (·.id)) m.id := by
  unfold dbUpsert introStep
  cases hf : rows.find? (fun r => r.id == m.id) with
  | some x =>
    have hx : x.id = m.id := by simpa using List.find?_some hf
    have hmem : m.id ∈ rows.map (·.id) :=
      hx ▸ List.mem_map_of_mem _ (List.mem_of_find?_eq_some hf)
    rw [ids_row_update]
    simp [hmem]
  | none =>
    have hmem : m.id ∉ rows.map (·.id) := by
      intro hc
      rcases List.mem_map.mp hc with ⟨x, hxmem, hxid⟩
      have hne := List.find?_eq_none.mp hf x hxmem
      simp only [beq_iff_eq] at hne
      exact hne (by simpa using hxid)
    simp [hmem, toRow]

/-- Loading the table preserves the id column. -/
lemma ids_load (rows : List Row) : (load rows).map (·.id) = rows.map (·.id) := by
  unfold load
  rw [List.map_map]
  rfl

lemma nodup_introStep (l : List String) (i : String) (h : l.Nodup) :
    (introStep l i).Nodup := by
  unfold introStep
  by_cases hm : i ∈ l
  · simpa [hm] using h
  · simp [hm, List.nodup_append, h]

end Chat

/-- C1: for every sequence of `saveMessage` appends applied to an
initially empty room, the snapshot's order equals the order ids were
first introduced; every appended id carries the entire latest append for
that id (in particular its content); and the snapshot holds exactly one
message per appended id. -/
theorem c1_store_first_position_last_write (ops : List ChatMessage) :
    (Chat.snapshot (Chat.applyAllStore ops)).map (·.id) =
      Chat.dedupFirst (ops.map (·.id))
    ∧ ∀ i, i ∈ ops.map (·.id) →
        (Chat.snapshot (Chat.applyAllStore ops)).find? (fun x => x.id == i) =
          Chat.lastWrite ops i
        ∧ (Chat.snapshot (Chat.applyAllStore ops)).countP (fun x => x.id == i) = 1 := by
  rw [Chat.snapshot_applyAllStore]
  have hids : (Chat.applyAll ops).map (·.id) = Chat.dedupFirst (ops.map (·.id)) := by
    rw [Chat.applyAll, Chat.foldl_ids]
    rfl
  refine ⟨hids, ?_⟩
  intro i hi
  refine ⟨Chat.lookup_applyAll ops i, ?_⟩
  rw [Chat.countP_id_eq_count, hids]
  exact List.count_eq_one_of_mem (Chat.dedupFirst_nodup _)
    ((Chat.mem_dedupFirst _ _).mpr hi)

/-- Witness for C1: appending id a twice (body hi, then body hi there)
leaves one entry for a whose content is the second append's. -/
theorem c1_store_first_position_last_write_witness :
    (Chat.snapshot (Chat.applyAllStore
        [⟨"a", "hi", "alice", Role.user, none, none⟩,
         ⟨"a", "hi there", "alice", Role.user, none, none⟩])).map (·.id) =
      Chat.dedupFirst
        (([⟨"a", "hi", "alice", Role.user, none, none⟩,
           ⟨"a", "hi there", "alice", Role.user, none, none⟩] :
            List ChatMessage).map (·.id))
    ∧ ((Chat.snapshot (Chat.applyAllStore
        [⟨"a", "hi", "alice", Role.user, none, none⟩,
         ⟨"a", "hi there", "alice", Role.user, none, none⟩])).find?
          (fun x => x.id == "a") =
        Chat.lastWrite
          [⟨"a", "hi", "alice", Role.user, none, none⟩,
           ⟨"a", "hi there", "alice", Role.user, none, none⟩] "a"
      ∧ (Chat.snapshot (Chat.applyAllStore
          [⟨"a", "hi", "alice", Role.user, none, none⟩,
           ⟨"a", "hi there", "alice", Role.user, none, none⟩])).countP
            (fun x => x.id == "a") = 1) :=
  ⟨(c1_store_first_position_last_write _).1,
   (c1_store_first_position_last_write
      [⟨"a", "hi", "alice", Role.user, none, none⟩,
       ⟨"a", "hi there", "alice", Role.user, none, none⟩]).2 "a" (by decide)⟩

/-- C2 counterexample: for the concrete add message with id a from
alice, handled in an empty room, there is no pair of positions in the
event trace at which the append occurs strictly before the broadcast:
the trace is broadcast-first, append-second. -/
theorem c2_counterexample :
    ¬ ∃ i j : Nat, i < j
        ∧ (Chat.onMessage Chat.emptyRoom
            (Chat.WireMsg.add "a" "hi" "alice" Role.user none none)).2[i]? =
          some (Chat.ServerEvent.appendEv ⟨"a", "hi", "alice", Role.user, none, none⟩)
        ∧ (Chat.onMessage Chat.emptyRoom
            (Chat.WireMsg.add "a" "hi" "alice" Role.user none none)).2[j]? =
          some (Chat.ServerEvent.broadcastEv
            (Chat.WireMsg.add "a" "hi" "alice" Role.user none none)) := by
  rintro ⟨i, j, hij, hi, hj⟩
  have hevs : (Chat.onMessage Chat.emptyRoom
      (Chat.WireMsg.add "a" "hi" "alice" Role.user none none)).2 =
      [Chat.ServerEvent.broadcastEv
        (Chat.WireMsg.add "a" "hi" "alice" Role.user none none),
       Chat.ServerEvent.appendEv ⟨"a", "hi", "alice", Role.user, none, none⟩] := rfl
  rw [hevs] at hi hj
  have hi1 : i = 1 := by
    match i with
    | 0 => simp at hi
    | 1 => rfl
    | (n + 2) => simp at hi
  have hj0 : j = 0 := by
    match j with
    | 0 => rfl
    | 1 => simp at hj
    | (n + 2) => simp at hj
  omega

/-- C2 amended: for every add or update processed by a room, the raw
message is broadcast to all members first and the store append happens
second; the event trace is exactly broadcast followed by append, and the
resulting state is the saved one. -/
theorem c2_amended_broadcast_then_append (st : Chat.StoreState)
    (msg : Chat.WireMsg) (m : ChatMessage) (h : msg.toChat? = some m) :
    (Chat.onMessage st msg).2 =
      [Chat.ServerEvent.broadcastEv msg, Chat.ServerEvent.appendEv m]
    ∧ (Chat.onMessage st msg).1 = Chat.saveMessage st m := by
  unfold Chat.onMessage
  rw [h]
  exact ⟨rfl, rfl⟩

/-- Witness for the amended C2 at a concrete add message. -/
theorem c2_amended_broadcast_then_append_witness :
    (Chat.onMessage Chat.emptyRoom
        (Chat.WireMsg.add "a" "hi" "alice" Role.user none none)).2 =
      [Chat.ServerEvent.broadcastEv
          (Chat.WireMsg.add "a" "hi" "alice" Role.user none none),
       Chat.ServerEvent.appendEv ⟨"a", "hi", "alice", Role.user, none, none⟩]
    ∧ (Chat.onMessage Chat.emptyRoom
        (Chat.WireMsg.add "a" "hi" "alice" Role.user none none)).1 =
      Chat.saveMessage Chat.emptyRoom ⟨"a", "hi", "alice", Role.user, none, none⟩ :=
  c2_amended_broadcast_then_append Chat.emptyRoom
    (Chat.WireMsg.add "a" "hi" "alice" Role.user none none)
    ⟨"a", "hi", "alice", Role.user, none, none⟩ rfl

namespace Chat

lemma fun_update_id (m : ChatMessage) (x : Row) :
    (if x.id == m.id then updateRow x m else x).id = x.id := by
  by_cases h : x.id = m.id
  · simp [h, updateRow]
  · simp [h]

/-- Upsert on a conflicting id rewrites the stored row to the update of
the first matching row. -/
lemma find?_dbUpsert_hit (rows : List Row) (m : ChatMessage) (r : Row)
    (h : rows.find? (fun x => x.id == m.id) = some r) :
    (dbUpsert rows m).find? (fun x => x.id == m.id) = some (updateRow r m) := by
  unfold dbUpsert
  rw [h]
  have hpred : (fun y : Row => y.id == m.id) ∘
      (fun y : Row => if y.id == m.id then updateRow y m else y) =
      fun y : Row => y.id == m.id := by
    funext y
    simp only [Function.comp_apply, fun_update_id]
  rw [List.find?_map, hpred, h]
  have hr : r.id = m.id := by simpa using List.find?_some h
  simp [hr]

/-- Looking an id up in the reconstructed state is looking its row up in
the table. -/
lemma find?_load (rows : List Row) (i : String) :
    (load rows).find? (fun x => x.id == i) =
      (rows.find? (fun r => r.id == i)).map rowToMsg := by
  unfold load
  have hpred : (fun y : ChatMessage => y.id == i) ∘ rowToMsg =
      fun r : Row => r.id == i := rfl
  rw [List.find?_map, hpred]

/-- After a save, looking up the saved id yields the new message. -/
lemma find?_save_self (msgs : List ChatMessage) (m : ChatMessage) :
    (saveMessageMem msgs m).find? (fun x => x.id == m.id) = some m := by
  rw [find?_save]
  simp

end Chat

/-- C9: on an append whose id already has a stored row, the durable
upsert rewrites only content, timestamp and svgs and keeps the stored
user and role, while the in-memory list takes the whole new record; so
with a different author the in-memory entry and the entry reconstructed
by a load disagree on the author-role pair. -/
theorem c9_upsert_frame_author_divergence (st : Chat.StoreState) (m : ChatMessage)
    (r : Chat.Row)
    (hdb : st.db.find? (fun x => x.id == m.id) = some r)
    (hne : r.user ≠ m.user) :
    (Chat.saveMessage st m).db.find? (fun x => x.id == m.id) =
      some (Chat.updateRow r m)
    ∧ (Chat.updateRow r m).user = r.user
    ∧ (Chat.updateRow r m).role = r.role
    ∧ (Chat.saveMessage st m).messages.find? (fun x => x.id == m.id) = some m
    ∧ ((Chat.load (Chat.saveMessage st m).db).find? (fun x => x.id == m.id)).map
        (fun x => (x.user, x.role)) = some (r.user, r.role)
    ∧ ((Chat.saveMessage st m).messages.find? (fun x => x.id == m.id)).map
        (fun x => (x.user, x.role)) ≠
      ((Chat.load (Chat.saveMessage st m).db).find? (fun x => x.id == m.id)).map
        (fun x => (x.user, x.role)) := by
  have hdbf : (Chat.saveMessage st m).db.find? (fun x => x.id == m.id) =
      some (Chat.updateRow r m) := Chat.find?_dbUpsert_hit st.db m r hdb
  have hmsg : (Chat.saveMessage st m).messages.find? (fun x => x.id == m.id) =
      some m := Chat.find?_save_self st.messages m
  have hload : ((Chat.load (Chat.saveMessage st m).db).find? (fun x => x.id == m.id)).map
      (fun x => (x.user, x.role)) = some (r.user, r.role) := by
    rw [Chat.find?_load, hdbf]
    rfl
  refine ⟨hdbf, rfl, rfl, hmsg, hload, ?_⟩
  rw [hmsg, hload]
  intro heq
  simp only [Option.map_some', Option.some.injEq, Prod.mk.injEq] at heq
  exact hne heq.1.symm

/-- Witness for C9: id a is stored with author alice, then appended with
author bob; memory says bob, a reload says alice. -/
theorem c9_upsert_frame_author_divergence_witness :
    (Chat.saveMessage
        ⟨[⟨"a", "hi", "alice", Role.user, none, none⟩],
         [⟨"a", "alice", Role.user, "hi", none, none⟩]⟩
        ⟨"a", "hi2", "bob", Role.user, none, none⟩).db.find?
      (fun x => x.id == "a") =
      some (Chat.updateRow ⟨"a", "alice", Role.user, "hi", none, none⟩
        ⟨"a", "hi2", "bob", Role.user, none, none⟩)
    ∧ (Chat.updateRow ⟨"a", "alice", Role.user, "hi", none, none⟩
        ⟨"a", "hi2", "bob", Role.user, none, none⟩).user = "alice"
    ∧ (Chat.updateRow ⟨"a", "alice", Role.user, "hi", none, none⟩
        ⟨"a", "hi2", "bob", Role.user, none, none⟩).role = Role.user
    ∧ (Chat.saveMessage
        ⟨[⟨"a", "hi", "alice", Role.user, none, none⟩],
         [⟨"a", "alice", Role.user, "hi", none, none⟩]⟩
        ⟨"a", "hi2", "bob", Role.user, none, none⟩).messages.find?
      (fun x => x.id == "a") = some ⟨"a", "hi2", "bob", Role.user, none, none⟩
    ∧ ((Chat.load (Chat.saveMessage
        ⟨[⟨"a", "hi", "alice", Role.user, none, none⟩],
         [⟨"a", "alice", Role.user, "hi", none, none⟩]⟩
        ⟨"a", "hi2", "bob", Role.user, none, none⟩).db).find?
          (fun x => x.id == "a")).map (fun x => (x.user, x.role)) =
      some ("alice", Role.user)
    ∧ ((Chat.saveMessage
        ⟨[⟨"a", "hi", "alice", Role.user, none, none⟩],
         [⟨"a", "alice", Role.user, "hi", none, none⟩]⟩
        ⟨"a", "hi2", "bob", Role.user, none, none⟩).messages.find?
          (fun x => x.id == "a")).map (fun x => (x.user, x.role)) ≠
      ((Chat.load (Chat.saveMessage
        ⟨[⟨"a", "hi", "alice", Role.user, none, none⟩],
         [⟨"a", "alice", Role.user, "hi", none, none⟩]⟩
        ⟨"a", "hi2", "bob", Role.user, none, none⟩).db).find?
          (fun x => x.id == "a")).map (fun x => (x.user, x.role)) :=
  c9_upsert_frame_author_divergence
    ⟨[⟨"a", "hi", "alice", Role.user, none, none⟩],
     [⟨"a", "alice", Role.user, "hi", none, none⟩]⟩
    ⟨"a", "hi2", "bob", Role.user, none, none⟩
    ⟨"a", "alice", Role.user, "hi", none, none⟩
    (by decide) (by decide)

/-- Result of the regex probes performed by `normalizeSvg` on the source
text (server lines 176-191): an optional viewBox quadruple, optional
width and height attributes, and whether the document already contains a
g element. -/
structure SvgSource where
  viewBox : Option (ℚ × ℚ × ℚ × ℚ)
  widthAttr : Option ℚ
  heightAttr : Option ℚ
  hasGroup : Bool
  deriving DecidableEq, Repr

/-- Bounding-box resolution of `normalizeSvg` (server lines 177-191):
prefer the viewBox; otherwise the width/height attributes; otherwise the
100 by 100 default anchored at the origin. -/
def resolveBounds (src : SvgSource) : ℚ × ℚ × ℚ × ℚ :=
  match src.viewBox with
  | some b => b
  | none => (0, 0, src.widthAttr.getD 100, src.heightAttr.getD 100)

/-- The normalized document produced by `normalizeSvg`: the rewritten
root viewBox, the parameters of the emitted transform
translate(offsetX,offsetY) scale(scale), and whether a fresh g wrapper
was injected. -/
structure NormDoc where
  viewBox : ℚ × ℚ × ℚ × ℚ
  scale : ℚ
  offsetX : ℚ
  offsetY : ℚ
  injectedGroup : Bool
  deriving DecidableEq, Repr

/-- The failure mode named by the specification for the geometry
pipeline. The source contains no corresponding throw. -/
inductive GeomError where
  | degenerateBounds
  deriving DecidableEq, Repr

/-- normalizeSvg (server lines 174-225). The arithmetic is the source's:
scale = 300 / max(width, height), offsetX = (300 - width*scale)/2 -
x*scale, offsetY = (300 - height*scale)/2 - y*scale; the viewBox is
rewritten to 0 0 300 300; a g wrapper is injected exactly when none
exists. The Except codomain makes the specification's failure mode
statable: the source never throws, so every input maps to ok. At
degenerate bounds the JS division yields Infinity where rational
division yields 0; no theorem below relies on the scale value at such
inputs. -/
def normalizeSvg (src : SvgSource) : Except GeomError NormDoc :=
  let b := resolveBounds src
  let x := b.1
  let y := b.2.1
  let width := b.2.2.1
  let height := b.2.2.2
  let targetSize : ℚ := 300
  let scale := targetSize / max width height
  let scaledWidth := width * scale
  let scaledHeight := height * scale
  let offsetX := (targetSize - scaledWidth) / 2 - x * scale
  let offsetY := (targetSize - scaledHeight) / 2 - y * scale
  Except.ok
    { viewBox := (0, 0, targetSize, targetSize),
      scale := scale, offsetX := offsetX, offsetY := offsetY,
      injectedGroup := !src.hasGroup }

/-- Affine point map denoted by the transform translate(offsetX,offsetY)
scale(scale) emitted by normalizeSvg. -/
def NormDoc.apply (d : NormDoc) (p : ℚ × ℚ) : ℚ × ℚ :=
  (d.offsetX + d.scale * p.1, d.offsetY + d.scale * p.2)

namespace Ink

/-- Scale and centering computed by `generateSvgBlob` (client lines
702-711) from the padded stroke bounding box (minX, minY, maxX, maxY). -/
structure Geom where
  scale : ℚ
  offsetX : ℚ
  offsetY : ℚ
  deriving DecidableEq, Repr

def geom (minX minY maxX maxY : ℚ) : Geom :=
  let contentWidth := maxX - minX
  let contentHeight := maxY - minY
  let targetSize : ℚ := 300
  let scale := targetSize / max contentWidth contentHeight
  let scaledWidth := contentWidth * scale
  let scaledHeight := contentHeight * scale
  { scale := scale,
    offsetX := (targetSize - scaledWidth) / 2,
    offsetY := (targetSize - scaledHeight) / 2 }

/-- Affine point map denoted by the composite transform
translate(offsetX,offsetY) scale(scale) translate(-minX,-minY) emitted
by generateSvgBlob (client line 715). -/
def apply (minX minY maxX maxY : ℚ) (p : ℚ × ℚ) : ℚ × ℚ :=
  let g := geom minX minY maxX maxY
  (g.offsetX + g.scale * (p.1 - minX), g.offsetY + g.scale * (p.2 - minY))

end Ink

/-- C4 counterexample: a source with viewBox 0 0 0 0 — degenerate
bounds, max(width,height) = 0 — is normalized to an ok output document,
not a GeometryError. -/
theorem c4_counterexample :
    normalizeSvg ⟨some (0, 0, 0, 0), none, none, false⟩ ≠
      Except.error GeomError.degenerateBounds
    ∧ ∃ d, normalizeSvg ⟨some (0, 0, 0, 0), none, none, false⟩ = Except.ok d := by
  exact ⟨fun hcon => Except.noConfusion hcon, ⟨_, rfl⟩⟩

/-- C4 amended: on degenerate resolved bounds (max(width,height) = 0)
normalize does not fail: it still produces an output document whose
viewBox is rewritten to 0 0 300 300 — there is no GeometryError path in
the code. -/
theorem c4_amended_degenerate_still_ok (src : SvgSource)
    (h : max (resolveBounds src).2.2.1 (resolveBounds src).2.2.2 = 0) :
    ∃ d, normalizeSvg src = Except.ok d ∧ d.viewBox = (0, 0, 300, 300) :=
  ⟨_, rfl, rfl⟩

/-- Witness for the amended C4 at the all-zero viewBox. -/
theorem c4_amended_degenerate_still_ok_witness :
    ∃ d, normalizeSvg ⟨some (0, 0, 0, 0), none, none, false⟩ = Except.ok d ∧
      d.viewBox = (0, 0, 300, 300) :=
  c4_amended_degenerate_still_ok ⟨some (0, 0, 0, 0), none, none, false⟩ (by decide)

/-- C5: for non-degenerate resolved bounds, normalize computes
scale = 300/max(width,height), offsetX = (300 - width*scale)/2 -
x*scale and offsetY = (300 - height*scale)/2 - y*scale; for the
viewBox 0 0 50 200 scenario this yields scale 1.5, offsetX 112.5 and
offsetY 0. -/
theorem c5_scale_and_offsets (src : SvgSource) (x y w h : ℚ)
    (hb : resolveBounds src = (x, y, w, h)) (hpos : 0 < max w h) :
    (∃ d, normalizeSvg src = Except.ok d
      ∧ d.scale = 300 / max w h
      ∧ d.offsetX = (300 - w * d.scale) / 2 - x * d.scale
      ∧ d.offsetY = (300 - h * d.scale) / 2 - y * d.scale)
    ∧ (∃ d, normalizeSvg ⟨some (0, 0, 50, 200), none, none, false⟩ = Except.ok d
      ∧ d.scale = 3 / 2 ∧ d.offsetX = 225 / 2 ∧ d.offsetY = 0) := by
  constructor
  · refine ⟨_, rfl, ?_, ?_, ?_⟩ <;> simp [normalizeSvg, hb]
  · refine ⟨⟨(0, 0, 300, 300), 3 / 2, 225 / 2, 0, true⟩, ?_, rfl, rfl, rfl⟩
    simp only [normalizeSvg, resolveBounds]
    rw [show max (50 : ℚ) 200 = 200 from by norm_num]
    norm_num [NormDoc.mk.injEq]

/-- Witness for C5 at the viewBox 0 0 50 200 scenario. -/
theorem c5_scale_and_offsets_witness :
    (∃ d, normalizeSvg ⟨some (0, 0, 50, 200), none, none, false⟩ = Except.ok d
      ∧ d.scale = 300 / max 50 200
      ∧ d.offsetX = (300 - 50 * d.scale) / 2 - 0 * d.scale
      ∧ d.offsetY = (300 - 200 * d.scale) / 2 - 0 * d.scale)
    ∧ (∃ d, normalizeSvg ⟨some (0, 0, 50, 200), none, none, false⟩ = Except.ok d
      ∧ d.scale = 3 / 2 ∧ d.offsetX = 225 / 2 ∧ d.offsetY = 0) :=
  c5_scale_and_offsets ⟨some (0, 0, 50, 200), none, none, false⟩ 0 0 50 200 rfl
    (by norm_num)

/-- C6: the ink-encoding pipeline's centering arithmetic and the
upload-normalization pipeline's centering arithmetic agree
extensionally: for every bounding box with positive extent the two
scales coincide and the two emitted composite transforms denote the same
affine point map. -/
theorem c6_shared_centering_arithmetic (x y w h : ℚ) (hpos : 0 < max w h)
    (d : NormDoc)
    (hd : normalizeSvg ⟨some (x, y, w, h), none, none, true⟩ = Except.ok d) :
    (Ink.geom x y (x + w) (y + h)).scale = d.scale
    ∧ ∀ p : ℚ × ℚ, Ink.apply x y (x + w) (y + h) p = d.apply p := by
  injection hd with hd'
  subst hd'
  constructor
  · simp only [Ink.geom, normalizeSvg, resolveBounds]
    rw [show x + w - x = w from by ring, show y + h - y = h from by ring]
  · intro p
    simp only [Ink.apply, Ink.geom, NormDoc.apply, normalizeSvg, resolveBounds]
    rw [show x + w - x = w from by ring, show y + h - y = h from by ring]
    simp only [Prod.mk.injEq]
    constructor <;> ring

/-- Witness for C6 at the 50 by 200 box anchored at the origin. -/
theorem c6_shared_centering_arithmetic_witness :
    (Ink.geom 0 0 (0 + 50) (0 + 200)).scale =
      NormDoc.scale ⟨(0, 0, 300, 300), 3 / 2, 225 / 2, 0, false⟩
    ∧ ∀ p : ℚ × ℚ, Ink.apply 0 0 (0 + 50) (0 + 200) p =
      NormDoc.apply ⟨(0, 0, 300, 300), 3 / 2, 225 / 2, 0, false⟩ p :=
  c6_shared_centering_arithmetic 0 0 50 200 (by norm_num)
    ⟨(0, 0, 300, 300), 3 / 2, 225 / 2, 0, false⟩ (by
      simp only [normalizeSvg, resolveBounds]
      rw [show max (50 : ℚ) 200 = 200 from by norm_num]
      norm_num [NormDoc.mk.injEq])

/-- Character class of the sanitizing regex in handleSvgUpload (server
lines 122-124): ASCII letters, digits, underscore, hyphen. -/
def isSafeChar (c : Char) : Bool :=
  ('a' ≤ c && c ≤ 'z') || ('A' ≤ c && c ≤ 'Z') || ('0' ≤ c && c ≤ '9')
    || c == '_' || c == '-'

/-- The sanitizing replace: every character outside the class becomes an
underscore. -/
def sanitize (s : String) : String :=
  ⟨s.data.map (fun c => if isSafeChar c then c else '_')⟩

/-- The object-storage key layout (server line 142): room, user and
messageId arrive already sanitized; the filename is interpolated
verbatim. -/
def uploadKey (safeRoom safeUser safeMessageId fname : String) : String :=
  "svgs/" ++ safeRoom ++ "/" ++ safeUser ++ "/" ++ safeMessageId ++ "/" ++ fname

/-- Slash-separated segments of a key, as character lists. -/
def pathSegments (s : String) : List (List Char) :=
  s.data.splitOn '/'

/-- One entry of the multipart svgs field: name, MIME type, text
content. -/
structure UploadFile where
  name : String
  ftype : String
  content : String
  deriving DecidableEq, Repr

/-- The multipart request: method, the svgs entries, and the optional
room, user and messageId form fields. -/
structure UploadReq where
  method : String
  files : List UploadFile
  room : Option String
  user : Option String
  messageId : Option String
  deriving DecidableEq, Repr

/-- JS `formData.get(k) as string || fallback`: a missing or empty field
falls back. -/
def orDefault (v : Option String) (d : String) : String :=
  match v with
  | some s => if s = "" then d else s
  | none => d

/-- JS String.prototype.endsWith, modelled on character lists. -/
def endsWithStr (s sfx : String) : Bool :=
  sfx.data.isSuffixOf s.data

/-- Negation of the skip condition on server line 137: a file is
processed when its MIME type is image/svg+xml or its name ends in
.svg. -/
def isValidSvg (f : UploadFile) : Bool :=
  f.ftype == "image/svg+xml" || endsWithStr f.name ".svg"

/-- The upload loop (server lines 135-160): skip invalid files; for each
valid file draw a fresh uuid, build the storage key, normalize and put
the content, and push the attachment descriptor — recorded here as the
list of (put key, descriptor) pairs in submission order. -/
def processFiles (uuid : Nat → String) (safeRoom safeUser safeMid : String) :
    List UploadFile → Nat → List (String × SvgAttachment)
  | [], _ => []
  | f :: rest, k =>
    if isValidSvg f then
      (uploadKey safeRoom safeUser safeMid f.name,
        ⟨uuid k, "/api/svg/" ++ uploadKey safeRoom safeUser safeMid f.name, f.name⟩)
        :: processFiles uuid safeRoom safeUser safeMid rest (k + 1)
    else
      processFiles uuid safeRoom safeUser safeMid rest k

/-- The observable outcome of handleSvgUpload: HTTP status, the
descriptor list of a success body, and the keys written to object
storage. -/
structure UploadResp where
  status : Nat
  svgs : Option (List SvgAttachment)
  putKeys : List String
  deriving DecidableEq, Repr

/-- handleSvgUpload (server lines 109-172): 405 for a non-POST method;
room, user and messageId default and are sanitized; 400 exactly when
the submission carries no files at all; otherwise 200 with one
descriptor per valid SVG file in submission order, non-SVG files being
silently skipped. uuid supplies the crypto.randomUUID results in call
order; freshMid models the randomUUID fallback for a missing messageId
field. -/
def handleSvgUpload (uuid : Nat → String) (freshMid : String)
    (req : UploadReq) : UploadResp :=
  if req.method ≠ "POST" then ⟨405, none, []⟩
  else
    let room := orDefault req.room "default"
    let user := orDefault req.user "anonymous"
    let messageId := orDefault req.messageId freshMid
    let safeRoom := sanitize room
    let safeUser := sanitize user
    let safeMessageId := sanitize messageId
    if req.files.length = 0 then ⟨400, none, []⟩
    else
      let pairs := processFiles uuid safeRoom safeUser safeMessageId req.files 0
      ⟨200, some (pairs.map Prod.snd), pairs.map Prod.fst⟩

lemma processFiles_filenames (uuid : Nat → String) (a b c : String)
    (files : List UploadFile) (k : Nat) :
    ((processFiles uuid a b c files k).map Prod.snd).map (·.filename) =
      (files.filter isValidSvg).map (·.name) := by
  induction files generalizing k with
  | nil => rfl
  | cons f rest ih =>
    by_cases hv : isValidSvg f
    · simp [processFiles, hv, List.filter_cons, ih]
    · simp [processFiles, hv, List.filter_cons, ih]

lemma processFiles_keys (uuid : Nat → String) (a b c : String)
    (files : List UploadFile) (k : Nat) (key : String)
    (hmem : key ∈ (processFiles uuid a b c files k).map Prod.fst) :
    ∃ fl ∈ files, isValidSvg fl = true ∧ key = uploadKey a b c fl.name := by
  induction files generalizing k with
  | nil => simp [processFiles] at hmem
  | cons f rest ih =>
    by_cases hv : isValidSvg f
    · rw [processFiles, if_pos hv] at hmem
      simp only [List.map_cons, List.mem_cons] at hmem
      rcases hmem with hk | hk
      · exact ⟨f, by simp, hv, hk⟩
      · rcases ih _ hk with ⟨fl, hfl, hflv, hfk⟩
        exact ⟨fl, by simp [hfl], hflv, hfk⟩
    · rw [processFiles, if_neg hv] at hmem
      rcases ih _ hmem with ⟨fl, hfl, hflv, hfk⟩
      exact ⟨fl, by simp [hfl], hflv, hfk⟩

lemma sanitize_all_safe (s : String) : (sanitize s).data.all isSafeChar = true := by
  show (s.data.map _).all _ = true
  rw [List.all_map]
  apply List.all_eq_true.mpr
  intro c _
  by_cases h : isSafeChar c
  · simp [h]
  · simp only [Function.comp_apply, if_neg h]
    decide

/-- C7 counterexample: a POST whose only file is a .png is answered with
status 200 and an empty descriptor list, not with 400. -/
theorem c7_counterexample :
    (handleSvgUpload (fun _ => "u0") "m0"
        ⟨"POST", [⟨"photo.png", "image/png", "bytes"⟩],
          some "room", some "alice", some "m1"⟩).status = 200
    ∧ (handleSvgUpload (fun _ => "u0") "m0"
        ⟨"POST", [⟨"photo.png", "image/png", "bytes"⟩],
          some "room", some "alice", some "m1"⟩).svgs = some []
    ∧ (handleSvgUpload (fun _ => "u0") "m0"
        ⟨"POST", [⟨"photo.png", "image/png", "bytes"⟩],
          some "room", some "alice", some "m1"⟩).status ≠ 400 := by
  refine ⟨rfl, ?_, by decide⟩
  rfl

/-- C7 amended: for a POST submission, 400 is returned exactly when the
submission carries no files at all; any nonempty file list — even one
with no valid SVG — yields 200, with one descriptor per valid file in
submission order. -/
theorem c7_amended_four_hundred_only_when_no_files (uuid : Nat → String)
    (freshMid : String) (req : UploadReq) (hm : req.method = "POST") :
    ((handleSvgUpload uuid freshMid req).status = 400 ↔ req.files = [])
    ∧ (req.files ≠ [] →
        (handleSvgUpload uuid freshMid req).status = 200
        ∧ ((handleSvgUpload uuid freshMid req).svgs.getD []).map (·.filename) =
            (req.files.filter isValidSvg).map (·.name)) := by
  unfold handleSvgUpload
  rw [if_neg (by simp [hm])]
  by_cases h0 : req.files.length = 0
  · rw [if_pos h0]
    have he : req.files = [] := List.length_eq_zero.mp h0
    exact ⟨by simp [he], fun hne => absurd he hne⟩
  · rw [if_neg h0]
    refine ⟨⟨fun hc => by simp at hc, fun he => absurd (by simp [he]) h0⟩,
      fun _ => ⟨rfl, ?_⟩⟩
    simpa using processFiles_filenames uuid _ _ _ req.files 0

/-- Witness for the amended C7: the three-file batch with one .png
produces exactly the two .svg descriptors, in order. -/
theorem c7_amended_four_hundred_only_when_no_files_witness :
    ((handleSvgUpload (fun _ => "u") "m"
        ⟨"POST",
          [⟨"a.svg", "image/svg+xml", "x"⟩, ⟨"photo.png", "image/png", "y"⟩,
           ⟨"b.svg", "", "z"⟩],
          some "room", some "alice", some "m1"⟩).status = 400 ↔
      ([⟨"a.svg", "image/svg+xml", "x"⟩, ⟨"photo.png", "image/png", "y"⟩,
        ⟨"b.svg", "", "z"⟩] : List UploadFile) = [])
    ∧ ((handleSvgUpload (fun _ => "u") "m"
        ⟨"POST",
          [⟨"a.svg", "image/svg+xml", "x"⟩, ⟨"photo.png", "image/png", "y"⟩,
           ⟨"b.svg", "", "z"⟩],
          some "room", some "alice", some "m1"⟩).status = 200
    ∧ ((handleSvgUpload (fun _ => "u") "m"
        ⟨"POST",
          [⟨"a.svg", "image/svg+xml", "x"⟩, ⟨"photo.png", "image/png", "y"⟩,
           ⟨"b.svg", "", "z"⟩],
          some "room", some "alice", some "m1"⟩).svgs.getD []).map (·.filename) =
      (([⟨"a.svg", "image/svg+xml", "x"⟩, ⟨"photo.png", "image/png", "y"⟩,
         ⟨"b.svg", "", "z"⟩] : List UploadFile).filter isValidSvg).map (·.name)) :=
  ⟨(c7_amended_four_hundred_only_when_no_files (fun _ => "u") "m"
      ⟨"POST",
        [⟨"a.svg", "image/svg+xml", "x"⟩, ⟨"photo.png", "image/png", "y"⟩,
         ⟨"b.svg", "", "z"⟩],
        some "room", some "alice", some "m1"⟩ rfl).1,
   (c7_amended_four_hundred_only_when_no_files (fun _ => "u") "m"
      ⟨"POST",
        [⟨"a.svg", "image/svg+xml", "x"⟩, ⟨"photo.png", "image/png", "y"⟩,
         ⟨"b.svg", "", "z"⟩],
        some "room", some "alice", some "m1"⟩ rfl).2 (by decide)⟩

/-- C8 counterexample: uploading a valid SVG named ../escape.svg stores
it under a key whose filename segments are .. and escape.svg — the key's
path segments are not confined to the restricted character set. -/
theorem c8_counterexample :
    (handleSvgUpload (fun _ => "u0") "m0"
        ⟨"POST", [⟨"../escape.svg", "image/svg+xml", "x"⟩],
          some "room", some "alice", some "m1"⟩).putKeys =
      ["svgs/room/alice/m1/../escape.svg"]
    ∧ ((pathSegments "svgs/room/alice/m1/../escape.svg").all
        (fun seg => seg.all isSafeChar)) = false := by
  exact ⟨rfl, by decide⟩

/-- C8 amended: the room, user and messageId segments of every
constructed key are sanitized to the restricted character set, and every
key handed to object storage is the key of some valid submitted file
with that file's name interpolated verbatim (unsanitized) as the final
part. -/
theorem c8_amended_sanitized_segments_verbatim_filename :
    (∀ s : String, (sanitize s).data.all isSafeChar = true)
    ∧ (∀ r u m f : String,
        uploadKey (sanitize r) (sanitize u) (sanitize m) f =
          "svgs/" ++ sanitize r ++ "/" ++ sanitize u ++ "/" ++ sanitize m ++ "/" ++ f)
    ∧ (∀ (uuid : Nat → String) (freshMid : String) (req : UploadReq) (key : String),
        key ∈ (handleSvgUpload uuid freshMid req).putKeys →
        ∃ fl ∈ req.files, isValidSvg fl = true
          ∧ key = uploadKey (sanitize (orDefault req.room "default"))
              (sanitize (orDefault req.user "anonymous"))
              (sanitize (orDefault req.messageId freshMid)) fl.name) := by
  refine ⟨sanitize_all_safe, fun r u m f => rfl, ?_⟩
  intro uuid freshMid req key hmem
  unfold handleSvgUpload at hmem
  by_cases hp : req.method ≠ "POST"
  · rw [if_pos hp] at hmem
    simp at hmem
  · rw [if_neg hp] at hmem
    by_cases h0 : req.files.length = 0
    · rw [if_pos h0] at hmem
      simp at hmem
    · rw [if_neg h0] at hmem
      exact processFiles_keys uuid _ _ _ req.files 0 key hmem

/-- Witness for the amended C8: the traversal-named file's key is traced
back to that file with sanitized folder segments. -/
theorem c8_amended_sanitized_segments_verbatim_filename_witness :
    ((sanitize "room-1").data.all isSafeChar = true)
    ∧ ∃ fl ∈ ([⟨"../escape.svg", "image/svg+xml", "x"⟩] : List UploadFile),
        isValidSvg fl = true
        ∧ "svgs/room/alice/m1/../escape.svg" =
          uploadKey (sanitize (orDefault (some "room") "default"))
            (sanitize (orDefault (some "alice") "anonymous"))
            (sanitize (orDefault (some "m1") "m0")) fl.name :=
  ⟨c8_amended_sanitized_segments_verbatim_filename.1 "room-1",
   c8_amended_sanitized_segments_verbatim_filename.2.2 (fun _ => "u0") "m0"
     ⟨"POST", [⟨"../escape.svg", "image/svg+xml", "x"⟩],
       some "room", some "alice", some "m1"⟩
     "svgs/room/alice/m1/../escape.svg" (by decide)⟩

/-- JS Array.prototype.findIndex, with the minus-one sentinel rendered
as an optional index. -/
def findIndex {α : Type} (p : α → Bool) : List α → Option Nat
  | [] => none
  | a :: t => if p a then some 0 else (findIndex p t).map (· + 1)

namespace Client

/-- Add branch of the client `usePartySocket` `onMessage` handler: if
the id is absent, append a new entry; otherwise rebuild the list as
slice-before, new entry, slice-after — an in-place replacement. -/
def handleAdd (msgs : List ChatMessage) (e : ChatMessage) : List ChatMessage :=
  match findIndex (fun x => x.id == e.id) msgs with
  | none => msgs ++ [e]
  | some i => msgs.take i ++ [e] ++ msgs.drop (i + 1)

/-- Update branch of the client handler: map-replace by id. -/
def handleUpdate (msgs : List ChatMessage) (e : ChatMessage) : List ChatMessage :=
  msgs.map (fun x => if x.id == e.id then e else x)

/-- The full client reducer over the three wire shapes. -/
def onMessage (msgs : List ChatMessage) : Chat.WireMsg → List ChatMessage
  | .add i c u r t s => handleAdd msgs ⟨i, c, u, r, t, s⟩
  | .update i c u r t s => handleUpdate msgs ⟨i, c, u, r, t, s⟩
  | .all ms => ms

/-- Optimistic local submission (the form onSubmit handler): the freshly
created message is appended before the add is transmitted. -/
def submitLocal (msgs : List ChatMessage) (c : ChatMessage) : List ChatMessage :=
  msgs ++ [c]

end Client

lemma findIndex_lt_length {α : Type} (p : α → Bool) (l : List α) (i : Nat)
    (h : findIndex p l = some i) : i < l.length := by
  induction l generalizing i with
  | nil => simp [findIndex] at h
  | cons a t ih =>
    simp only [findIndex] at h
    by_cases hp : p a
    · rw [if_pos hp] at h
      cases h
      simp
    · rw [if_neg hp] at h
      rcases Option.map_eq_some'.mp h with ⟨j, hj, hji⟩
      have := ih j hj
      simp only [List.length_cons]
      omega

lemma findIndex_append_of_not {α : Type} (p : α → Bool) (l : List α) (c : α)
    (hl : ∀ x ∈ l, p x = false) (hc : p c = true) :
    findIndex p (l ++ [c]) = some l.length := by
  induction l with
  | nil => simp [findIndex, hc]
  | cons a t ih =>
    have ha : p a = false := hl a (by simp)
    have ht := ih (fun x hx => hl x (by simp [hx]))
    simp [findIndex, ha, ht]

/-- C3: the client reconciler's add handling is an in-place replacement:
when the id is already at index i, the result keeps the length, carries
the new entry at index i and every other position unchanged; and the
optimistic-insert-then-echo scenario ends with exactly one entry for the
id, never two. -/
theorem c3_client_in_place_replacement :
    (∀ (msgs : List ChatMessage) (e : ChatMessage) (i : Nat),
        findIndex (fun x => x.id == e.id) msgs = some i →
        (Client.handleAdd msgs e).length = msgs.length
        ∧ (Client.handleAdd msgs e)[i]? = some e
        ∧ ∀ j, j ≠ i → (Client.handleAdd msgs e)[j]? = msgs[j]?)
    ∧ (∀ (msgs : List ChatMessage) (c e : ChatMessage),
        e.id = c.id → (∀ x ∈ msgs, x.id ≠ c.id) →
        Client.handleAdd (Client.submitLocal msgs c) e = msgs ++ [e]
        ∧ (Client.handleAdd (Client.submitLocal msgs c) e).countP
            (fun x => x.id == e.id) = 1) := by
  constructor
  · intro msgs e i hfi
    have hlt := findIndex_lt_length _ _ _ hfi
    unfold Client.handleAdd
    rw [hfi]
    have hta : (msgs.take i).length = i := by
      simpa [List.length_take] using Nat.min_eq_left (Nat.le_of_lt hlt)
    refine ⟨?_, ?_, ?_⟩
    · simp only [List.length_append, hta, List.length_cons, List.length_nil,
        List.length_drop]
      omega
    · rw [List.getElem?_append, if_pos (by simp [hta])]
      rw [List.getElem?_append, if_neg (by omega : ¬ i < (msgs.take i).length)]
      simp [hta]
    · intro j hj
      rcases Nat.lt_or_ge j i with hji | hji
      · rw [List.getElem?_append, if_pos (by simp [hta]; omega)]
        rw [List.getElem?_append, if_pos (by omega : j < (msgs.take i).length)]
        rw [List.getElem?_take]
        rw [if_pos hji]
      · have hji' : i < j := Nat.lt_of_le_of_ne hji (fun hh => hj hh.symm)
        rw [List.getElem?_append,
          if_neg (by simp [hta, List.length_append]; omega)]
        rw [List.getElem?_drop]
        rw [show (msgs.take i ++ [e]).length = i + 1 by simp [hta]]
        rw [show i + 1 + (j - (i + 1)) = j by omega]
  · intro msgs c e he hno
    have hfi : findIndex (fun x => x.id == e.id) (msgs ++ [c]) = some msgs.length := by
      apply findIndex_append_of_not
      · intro x hx
        simp only [beq_eq_false_iff_ne, ne_eq]
        rw [he]
        exact hno x hx
      · simp [he]
    have hres : Client.handleAdd (Client.submitLocal msgs c) e = msgs ++ [e] := by
      unfold Client.handleAdd Client.submitLocal
      rw [hfi]
      show (msgs ++ [c]).take msgs.length ++ [e] ++ (msgs ++ [c]).drop (msgs.length + 1) =
        msgs ++ [e]
      rw [List.take_left, List.drop_append 1]
      simp
    refine ⟨hres, ?_⟩
    rw [hres, List.countP_append]
    have h0 : msgs.countP (fun x => x.id == e.id) = 0 := by
      rw [List.countP_eq_zero]
      intro x hx
      simp only [beq_iff_eq]
      rw [he]
      exact hno x hx
    rw [h0]
    simp

/-- Witness for C3: replacing the optimistic entry for id a by its echo
leaves a single entry carrying the echoed record. -/
theorem c3_client_in_place_replacement_witness :
    ((Client.handleAdd [⟨"a", "hi", "alice", Role.user, none, none⟩]
        ⟨"a", "hi", "alice", Role.user, some 5, none⟩).length =
      ([⟨"a", "hi", "alice", Role.user, none, none⟩] : List ChatMessage).length
    ∧ (Client.handleAdd [⟨"a", "hi", "alice", Role.user, none, none⟩]
        ⟨"a", "hi", "alice", Role.user, some 5, none⟩)[0]? =
      some ⟨"a", "hi", "alice", Role.user, some 5, none⟩)
    ∧ (Client.handleAdd
        (Client.submitLocal [] ⟨"a", "hi", "alice", Role.user, none, none⟩)
        ⟨"a", "hi", "alice", Role.user, some 5, none⟩ =
      [] ++ [⟨"a", "hi", "alice", Role.user, some 5, none⟩]
    ∧ (Client.handleAdd
        (Client.submitLocal [] ⟨"a", "hi", "alice", Role.user, none, none⟩)
        ⟨"a", "hi", "alice", Role.user, some 5, none⟩).countP
        (fun x => x.id == "a") = 1) :=
  ⟨⟨(c3_client_in_place_replacement.1
      [⟨"a", "hi", "alice", Role.user, none, none⟩]
      ⟨"a", "hi", "alice", Role.user, some 5, none⟩ 0 (by decide)).1,
    (c3_client_in_place_replacement.1
      [⟨"a", "hi", "alice", Role.user, none, none⟩]
      ⟨"a", "hi", "alice", Role.user, some 5, none⟩ 0 (by decide)).2.1⟩,
   c3_client_in_place_replacement.2 []
      ⟨"a", "hi", "alice", Role.user, none, none⟩
      ⟨"a", "hi", "alice", Role.user, some 5, none⟩ rfl (by simp)⟩

/-- C10: message ids in the in-memory list are pairwise distinct: the
invariant is preserved by both halves of `saveMessage` (in-memory
map-replace-or-push and the id-keyed durable upsert) and transfers
through the initial load from durable storage. -/
theorem c10_id_uniqueness_invariant :
    (∀ (msgs : List ChatMessage) (m : ChatMessage),
        (msgs.map (·.id)).Nodup → ((Chat.saveMessageMem msgs m).map (·.id)).Nodup)
    ∧ (∀ (rows : List Chat.Row) (m : ChatMessage),
        (rows.map (·.id)).Nodup → ((Chat.dbUpsert rows m).map (·.id)).Nodup)
    ∧ (∀ rows : List Chat.Row,
        (rows.map (·.id)).Nodup → ((Chat.load rows).map (·.id)).Nodup) := by
  refine ⟨?_, ?_, ?_⟩
  · intro msgs m h
    rw [Chat.ids_save]
    exact Chat.nodup_introStep _ _ h
  · intro rows m h
    rw [Chat.ids_dbUpsert]
    exact Chat.nodup_introStep _ _ h
  · intro rows h
    rw [Chat.ids_load]
    exact h

/-- Witness for C10 at concrete one-element stores. -/
theorem c10_id_uniqueness_invariant_witness :
    ((Chat.saveMessageMem [⟨"a", "hi", "alice", Role.user, none, none⟩]
        ⟨"b", "yo", "bob", Role.user, none, none⟩).map (·.id)).Nodup
    ∧ ((Chat.dbUpsert [⟨"a", "alice", Role.user, "hi", none, none⟩]
        ⟨"b", "yo", "bob", Role.user, none, none⟩).map (·.id)).Nodup
    ∧ ((Chat.load [⟨"a", "alice", Role.user, "hi", none, none⟩]).map (·.id)).Nodup :=
  ⟨c10_id_uniqueness_invariant.1 _ _ (by decide),
   c10_id_uniqueness_invariant.2.1 _ _ (by decide),
   c10_id_uniqueness_invariant.2.2 _ (by decide)⟩

